import Mathlib

/-!
Verification of the ClearPath chatbot query-time decision pipeline:
the embedding-cache-backed retriever (`backend/rag/retrieve.py`),
the deterministic complexity classifier (`backend/router/router.py`),
and the rule-based response evaluator (`backend/evaluator/evaluator.py`).

The Python source is shallowly embedded: text is handled as `String` /
`List Char`, floats as `ℚ`, the mutable LRU `OrderedDict` cache as an
explicit association list threaded through the functions, and the fallible
spots (list indexing by an index coming from FAISS, the overlap-ratio
division) return `Option`.
-/

set_option autoImplicit false

/- `Rat` arithmetic in Batteries is `@[irreducible]`, which keeps `decide`
from evaluating concrete rational computations.  Restore semireducibility so
that the embedded pipeline can be run on concrete inputs inside proofs. -/
set_option allowUnsafeReducibility true
attribute [semireducible] Rat.mul Rat.add Rat.inv Rat.sub Rat.neg Rat.blt Rat.div Rat.ofScientific

namespace ClearPath

/-! ## Character and string utilities (Python `str` semantics) -/

/-- Python `\w` (ASCII fragment): letters, digits, underscore. -/
def isWordChar (c : Char) : Bool :=
  c.isAlpha || c.isDigit || c = '_'

/-- `s.strip()` : drop leading and trailing whitespace. -/
def pyStripChars (l : List Char) : List Char :=
  ((l.dropWhile Char.isWhitespace).reverse.dropWhile Char.isWhitespace).reverse

/-- `s.lower()` on a char list (ASCII). -/
def pyLowerChars (l : List Char) : List Char :=
  l.map Char.toLower

/-- `s.strip().lower()` as used by the router and the cache key. -/
def normalizeChars (l : List Char) : List Char :=
  pyLowerChars (pyStripChars l)

def pyStrip (s : String) : String := ⟨pyStripChars s.data⟩

def pyLower (s : String) : String := ⟨pyLowerChars s.data⟩

/-- Python `needle in hay` substring test, on char lists. -/
def containsSub (needle : List Char) : List Char → Bool
  | [] => needle.isPrefixOf []
  | c :: cs => needle.isPrefixOf (c :: cs) || containsSub needle cs

/-- Python `needle in hay` substring test, on strings. -/
def strContains (hay needle : String) : Bool :=
  containsSub needle.data hay.data

/-- `p` is a prefix of `s` (Boolean, used to recognize a flag kind). -/
def strHasPrefix (p s : String) : Bool :=
  p.data.isPrefixOf s.data

/-- `str.split()` : split on whitespace runs, dropping empty pieces.
`cur` accumulates the current word reversed. -/
def splitWsAux (cur : List Char) : List Char → List (List Char)
  | [] => if cur.isEmpty then [] else [cur.reverse]
  | c :: cs =>
    if c.isWhitespace then
      if cur.isEmpty then splitWsAux [] cs else cur.reverse :: splitWsAux [] cs
    else splitWsAux (c :: cur) cs

def splitWs (l : List Char) : List (List Char) := splitWsAux [] l

/-- `re.split` on the class `[.!?]`, then strip-and-drop-empty, as the
router does for sentence counting.  Splitting on the single characters and
dropping empty stripped segments is equivalent to splitting on runs. -/
def splitSentencesAux (cur : List Char) : List Char → List (List Char)
  | [] => if (pyStripChars cur.reverse).isEmpty then [] else [pyStripChars cur.reverse]
  | c :: cs =>
    if c = '.' || c = '!' || c = '?' then
      if (pyStripChars cur.reverse).isEmpty then splitSentencesAux [] cs
      else pyStripChars cur.reverse :: splitSentencesAux [] cs
    else splitSentencesAux (c :: cur) cs

def splitSentences (l : List Char) : List (List Char) := splitSentencesAux [] l

/-- `text.count(c)`. -/
def countChar (c : Char) (l : List Char) : Nat :=
  (l.filter (fun d => d == c)).length

/-- Decimal digits of `n`, most significant first (`str(n)` in Python).
Structural on the fuel so that it reduces in the kernel. -/
def natStrAux : Nat → Nat → List Char
  | 0, _ => []
  | fuel + 1, n =>
    if n < 10 then [Char.ofNat (48 + n)]
    else natStrAux fuel (n / 10) ++ [Char.ofNat (48 + n % 10)]

def natStr (n : Nat) : String := ⟨natStrAux (n + 1) n⟩

/-- `sep.join(parts)`. -/
def joinWith (sep : String) : List String → String
  | [] => ""
  | [x] => x
  | x :: y :: xs => x ++ sep ++ joinWith sep (y :: xs)

/-! ## Router (`backend/router/router.py`) -/

/-- `MODELS` dict; the classifier only ever looks up its two keys. -/
def MODELS (classification : String) : String :=
  if classification = "simple" then "llama-3.1-8b-instant"
  else "llama-3.3-70b-versatile"

def COMPLEX_THRESHOLD : Int := 2

def REASONING_KEYWORDS : List String :=
  ["explain", "compare", "analyze", "difference", "why", "how does",
   "what happens", "describe", "elaborate", "detail", "advantages",
   "disadvantages", "trade-off", "tradeoff", "versus", "vs",
   "recommend", "suggest", "best practice", "architecture", "design",
   "strategy", "approach", "workflow", "process", "troubleshoot",
   "debug", "diagnose", "investigate", "complex", "advanced"]

def COMPLAINT_KEYWORDS : List String :=
  ["not working", "broken", "bug", "crash", "error", "issue",
   "problem", "fail", "can't", "cannot", "unable", "stuck",
   "wrong", "fix", "help me", "urgent", "frustrated"]

/-! The comparison / greeting / yes-no regexes of the router are embedded as
hand-compiled matchers over char lists.  A matcher takes the character just
before the current position (`none` at the start of the text) so that the
`\b` word-boundary assertions can be evaluated.  `scanAll` tries a matcher
at every position (`re.search`); `re.match` applies the matcher at the
start only. -/

/-- `\b` holds before the current position when the previous character is
not a word character and the next one is (start of a word). -/
def boundaryBeforeWord (prev : Option Char) : Bool :=
  match prev with
  | none => true
  | some c => !isWordChar c

/-- The next character (if any) is a word character. -/
def wordHead : List Char → Bool
  | [] => false
  | c :: _ => isWordChar c

/-- `\b` after a word character: next char absent or not a word char. -/
def nonWordHead (l : List Char) : Bool := !wordHead l

/-- If `p` is a prefix of `l`, the rest of `l`. -/
def stripPre (p l : List Char) : Option (List Char) :=
  match p, l with
  | [], l => some l
  | _ :: _, [] => none
  | a :: ps, b :: ls => if a == b then stripPre ps ls else none

/-- Consume a (possibly empty) maximal run of whitespace. -/
def skipWs (l : List Char) : List Char := l.dropWhile Char.isWhitespace

/-- Consume a nonempty maximal whitespace run (`\s+`), else fail. -/
def skipWs1 (l : List Char) : Option (List Char) :=
  match l with
  | [] => none
  | c :: cs => if c.isWhitespace then some (skipWs cs) else none

/-- Literal word followed by a `\b`. -/
def wordThenBoundary (w : String) (l : List Char) : Bool :=
  match stripPre w.data l with
  | some rest => nonWordHead rest
  | none => false

/-- Try a matcher at every position of the text (`re.search`). -/
def scanAll (p : Option Char → List Char → Bool) : Option Char → List Char → Bool
  | prev, [] => p prev []
  | prev, c :: cs => p prev (c :: cs) || scanAll p (some c) cs

/-- `\bvs\.?\b` -/
def matchVs (prev : Option Char) (l : List Char) : Bool :=
  boundaryBeforeWord prev &&
    (match stripPre "vs".data l with
     | none => false
     | some rest =>
       (match rest with
        | '.' :: r => wordHead r
        | _ => false) || nonWordHead rest)

/-- `\bversus\b` -/
def matchVersus (prev : Option Char) (l : List Char) : Bool :=
  boundaryBeforeWord prev && wordThenBoundary "versus" l

/-- `\bcompared?\s+to\b` -/
def matchComparedTo (prev : Option Char) (l : List Char) : Bool :=
  boundaryBeforeWord prev &&
    (match stripPre "compare".data l with
     | none => false
     | some rest =>
       let rest1 := match rest with
         | 'd' :: r => r
         | r => r
       match skipWs1 rest1 with
       | none => false
       | some rest2 => wordThenBoundary "to" rest2)

/-- `\bdifference\s+between\b` -/
def matchDifferenceBetween (prev : Option Char) (l : List Char) : Bool :=
  boundaryBeforeWord prev &&
    (match stripPre "difference".data l with
     | none => false
     | some rest =>
       match skipWs1 rest with
       | none => false
       | some rest2 => wordThenBoundary "between" rest2)

/-- `\bwhich\s+(one|plan|option)\b` -/
def matchWhichOne (prev : Option Char) (l : List Char) : Bool :=
  boundaryBeforeWord prev &&
    (match stripPre "which".data l with
     | none => false
     | some rest =>
       match skipWs1 rest with
       | none => false
       | some rest2 =>
         ["one", "plan", "option"].any (fun w => wordThenBoundary w rest2))

/-- `\bbetter\s+than\b` -/
def matchBetterThan (prev : Option Char) (l : List Char) : Bool :=
  boundaryBeforeWord prev &&
    (match stripPre "better".data l with
     | none => false
     | some rest =>
       match skipWs1 rest with
       | none => false
       | some rest2 => wordThenBoundary "than" rest2)

/-- `\bpros?\s+and\s+cons?\b` -/
def matchProsCons (prev : Option Char) (l : List Char) : Bool :=
  boundaryBeforeWord prev &&
    (match stripPre "pro".data l with
     | none => false
     | some rest =>
       let rest1 := match rest with
         | 's' :: r => r
         | r => r
       match skipWs1 rest1 with
       | none => false
       | some rest2 =>
         match stripPre "and".data rest2 with
         | none => false
         | some rest3 =>
           match skipWs1 rest3 with
           | none => false
           | some rest4 =>
             match stripPre "con".data rest4 with
             | none => false
             | some rest5 =>
               (match rest5 with
                | 's' :: r => nonWordHead r
                | _ => false) || nonWordHead rest5)

/-- `COMPARISON_PATTERNS`, searched anywhere in the text. -/
def comparisonFound (l : List Char) : Bool :=
  [matchVs, matchVersus, matchComparedTo, matchDifferenceBetween,
   matchWhichOne, matchBetterThan, matchProsCons].any
    (fun m => scanAll m none l)

/-- `GREETING_PATTERNS`, anchored at the start (`re.match`). -/
def greetingFound (l : List Char) : Bool :=
  ["hi", "hello", "hey", "howdy", "greetings", "yo", "sup"].any
    (fun w => wordThenBoundary w l) ||
  (match stripPre "good".data l with
   | none => false
   | some rest =>
     let rest1 := skipWs rest
     ["morning", "afternoon", "evening"].any (fun w => wordThenBoundary w rest1))

/-- `YES_NO_PATTERNS`, anchored at the start (`re.match`). -/
def yesNoFound (l : List Char) : Bool :=
  ["yes", "no", "yeah", "nah", "yep", "nope", "sure", "ok", "okay",
   "absolutely", "definitely", "correct", "right"].any
    (fun w => wordThenBoundary w l)

structure ClassificationResult where
  classification : String
  model_used : String
  complex_score : Int
  signals : List String
  deriving DecidableEq, Repr

/-- `classify_query` from `backend/router/router.py`. -/
def classify_query (query : String) : ClassificationResult :=
  let text : List Char := normalizeChars query.data
  let word_count : Nat := (splitWs text).length
  let sentences : List (List Char) := splitSentences text
  -- Signal 1: long query
  let s1 : Int := if word_count ≥ 20 then 2 else 0
  let g1 : List String :=
    if word_count ≥ 20 then ["long_query (word_count=" ++ natStr word_count ++ ")"] else []
  -- Signal 2: reasoning keywords
  let reasoning_found := REASONING_KEYWORDS.filter (fun kw => containsSub kw.data text)
  let s2 : Int := if reasoning_found.isEmpty then 0 else 2
  let g2 : List String :=
    if reasoning_found.isEmpty then []
    else ["reasoning_keywords (" ++ joinWith ", " (reasoning_found.take 3) ++ ")"]
  -- Signal 3: multiple question marks
  let question_marks := countChar '?' text
  let s3 : Int := if question_marks > 1 then 1 else 0
  let g3 : List String :=
    if question_marks > 1 then ["multiple_questions (count=" ++ natStr question_marks ++ ")"] else []
  -- Signal 4: multi-sentence
  let s4 : Int := if sentences.length ≥ 3 then 1 else 0
  let g4 : List String :=
    if sentences.length ≥ 3 then ["multi_sentence (count=" ++ natStr sentences.length ++ ")"] else []
  -- Signal 5: comparison patterns
  let s5 : Int := if comparisonFound text then 1 else 0
  let g5 : List String := if comparisonFound text then ["comparison_pattern"] else []
  -- Signal 6: complaint keywords
  let complaint_found := COMPLAINT_KEYWORDS.filter (fun kw => containsSub kw.data text)
  let s6 : Int := if complaint_found.isEmpty then 0 else 1
  let g6 : List String :=
    if complaint_found.isEmpty then []
    else ["complaint_detected (" ++ joinWith ", " (complaint_found.take 2) ++ ")"]
  -- Signal 7: short query
  let s7 : Int := if word_count < 8 then -2 else 0
  let g7 : List String :=
    if word_count < 8 then ["short_query (word_count=" ++ natStr word_count ++ ")"] else []
  -- Signal 8: greeting
  let s8 : Int := if greetingFound text then -2 else 0
  let g8 : List String := if greetingFound text then ["greeting_detected"] else []
  -- Signal 9: yes/no response
  let s9 : Int := if yesNoFound text then -1 else 0
  let g9 : List String := if yesNoFound text then ["yes_no_response"] else []
  let complex_score := s1 + s2 + s3 + s4 + s5 + s6 + s7 + s8 + s9
  let classification := if complex_score ≥ COMPLEX_THRESHOLD then "complex" else "simple"
  { classification := classification
    model_used := MODELS classification
    complex_score := complex_score
    signals := g1 ++ g2 ++ g3 ++ g4 ++ g5 ++ g6 ++ g7 ++ g8 ++ g9 }

/-! ## Rounding (`round(x, 4)` and `:.1%` formatting, idealized over ℚ) -/

/-- Floor of a rational as an integer (`q.den` is positive, so Euclidean
division by it is floor division). -/
def ratFloorZ (q : ℚ) : ℤ := q.num.ediv (q.den : ℤ)

/-- Round-half-to-even, the rounding mode of the Python `round` builtin. -/
def roundHalfEven (q : ℚ) : ℤ :=
  let n := ratFloorZ q
  let frac := q - (n : ℚ)
  if 1/2 < frac then n + 1
  else if frac < 1/2 then n
  else if n % 2 = 0 then n else n + 1

/-- `round(x, 4)`. -/
def round4 (q : ℚ) : ℚ := (roundHalfEven (q * 10000) : ℚ) / 10000

/-- Python `f"{q:.1%}"` for nonnegative `q`. -/
def formatPercent1 (q : ℚ) : String :=
  let n := (roundHalfEven (q * 1000)).toNat
  natStr (n / 10) ++ "." ++ natStr (n % 10) ++ "%"

/-! ## Evaluator (`backend/evaluator/evaluator.py`) -/

def REFUSAL_PHRASES : List String :=
  ["i don't know", "i cannot", "i'm not sure", "i do not have access",
   "i don't have enough information", "i'm unable to", "i am not sure",
   "i am unable", "i cannot provide", "i don't have information",
   "not in the documentation", "not mentioned in", "beyond my knowledge"]

def HALLUCINATION_KEYWORDS : List String :=
  ["blockchain", "cryptocurrency", "nft", "quantum", "bitcoin",
   "ethereum", "metaverse", "web3", "defi", "dao", "solana",
   "dogecoin", "mining", "token sale", "ico"]

def STOPWORDS : List String :=
  ["a", "an", "the", "is", "are", "was", "were", "be", "been", "being",
   "have", "has", "had", "do", "does", "did", "will", "would", "could",
   "should", "may", "might", "shall", "can", "need", "must",
   "i", "you", "he", "she", "it", "we", "they", "me", "him", "her",
   "us", "them", "my", "your", "his", "its", "our", "their",
   "this", "that", "these", "those", "what", "which", "who", "whom",
   "and", "but", "or", "nor", "not", "so", "yet", "both", "either",
   "neither", "each", "every", "all", "any", "few", "more", "most",
   "other", "some", "such", "no", "only", "own", "same", "than",
   "too", "very", "just", "also", "how", "when", "where", "why",
   "in", "on", "at", "to", "for", "of", "with", "by", "from",
   "up", "about", "into", "through", "during", "before", "after",
   "above", "below", "between", "under", "again", "further", "then",
   "once", "here", "there", "if", "because", "as", "until", "while",
   "based", "provided", "using", "used", "like", "including",
   "please", "note", "however", "well", "per"]

def CONTEXT_OVERLAP_THRESHOLD : ℚ := 3/10

/-- Close the current maximal `\w`-run: it is a `\b[a-zA-Z]{3,}\b` match
iff it is purely alphabetic with length at least 3. -/
def closeRun (cur : List Char) : List (List Char) :=
  if cur.length ≥ 3 && cur.all Char.isAlpha then [cur.reverse] else []

/-- All matches of `\b[a-zA-Z]{3,}\b`: the word boundaries force every
match to be a full maximal `\w`-run, so we scan those runs. -/
def scanWordRunsAux (cur : List Char) : List Char → List (List Char)
  | [] => closeRun cur
  | c :: cs =>
    if isWordChar c then scanWordRunsAux (c :: cur) cs
    else closeRun cur ++ scanWordRunsAux [] cs

def scanWordRuns (l : List Char) : List (List Char) := scanWordRunsAux [] l

/-- `_extract_content_words`: the length-3-plus alphabetic word matches on the lower-cased text
as a set (deduplicated), minus stop words. -/
def _extract_content_words (text : String) : List String :=
  (((scanWordRuns (pyLowerChars text.data)).map
      (fun w => (⟨w⟩ : String))).dedup).filter
    (fun w => !(STOPWORDS.contains w))

/-- All matches of `\$[\d,]+(?:\.\d{2})?(?:/\w+)?` in scan order
(`re.findall`, leftmost non-overlapping, greedy).  The fuel is an upper
bound on the number of scanning steps; `_extract_prices` supplies
the length of the text. -/
def scanPricesAux : Nat → List Char → List (List Char)
  | 0, _ => []
  | _, [] => []
  | fuel + 1, c :: cs =>
    if c = '$' then
      let digs := cs.takeWhile (fun d => d.isDigit || d = ',')
      if digs.isEmpty then scanPricesAux fuel cs
      else
        let r1 := cs.dropWhile (fun d => d.isDigit || d = ',')
        let centsRest : List Char × List Char :=
          match r1 with
          | '.' :: d1 :: d2 :: rest =>
            if d1.isDigit && d2.isDigit then (['.', d1, d2], rest) else ([], r1)
          | _ => ([], r1)
        let unitRest : List Char × List Char :=
          match centsRest.2 with
          | '/' :: rest =>
            let ws := rest.takeWhile isWordChar
            if ws.isEmpty then ([], centsRest.2)
            else ('/' :: ws, rest.dropWhile isWordChar)
          | _ => ([], centsRest.2)
        ('$' :: (digs ++ centsRest.1 ++ unitRest.1)) :: scanPricesAux fuel unitRest.2
    else scanPricesAux fuel cs

/-- `_extract_prices`. -/
def _extract_prices (text : String) : List String :=
  (scanPricesAux (text.data.length + 1) text.data).map (fun w => (⟨w⟩ : String))

/-- Ascending insertion into a sorted list of strings. -/
def insertSortedStr (x : String) : List String → List String
  | [] => [x]
  | y :: ys => if x < y then x :: y :: ys else y :: insertSortedStr x ys

/-- Python `sorted` on a list of strings (code-point lexicographic). -/
def sortStrings : List String → List String
  | [] => []
  | x :: xs => insertSortedStr x (sortStrings xs)

structure Chunk where
  chunk_id : Nat
  document_name : String
  text : String
  deriving DecidableEq, Repr

/-- `" ".join(chunk["text"] for chunk in retrieved_chunks)`. -/
def contextText (retrieved_chunks : List Chunk) : String :=
  joinWith " " (retrieved_chunks.map (fun c => c.text))

/-- The response-side price tokens (as a set) that appear in no retrieved
chunk, the quantity `_check_contradictory_pricing` reports. -/
def unsourcedPrices (response : String) (retrieved_chunks : List Chunk) : List String :=
  ((_extract_prices response).dedup).filter
    (fun p => !((_extract_prices (contextText retrieved_chunks)).contains p))

/-- `_check_contradictory_pricing`. -/
def _check_contradictory_pricing (response : String) (retrieved_chunks : List Chunk) :
    Option String :=
  if ((_extract_prices response).dedup).isEmpty then none
  else if (unsourcedPrices response retrieved_chunks).isEmpty then none
  else some ("unsourced_pricing (response mentions " ++
    joinWith ", " (sortStrings (unsourcedPrices response retrieved_chunks)) ++
    " not found in retrieved docs)")

structure EvalResult where
  response : String
  confidence : String
  flags : List String
  deriving DecidableEq, Repr

/-- Check 1 of `evaluate_response`: no retrieved context. -/
def noContextFlag (retrieved_chunks : List Chunk) : List String :=
  if retrieved_chunks.length = 0 then ["no_context"] else []

/-- Check 2: refusal phrases (the `break` makes at most one flag). -/
def refusalFlag (response_lower : String) : List String :=
  if REFUSAL_PHRASES.any (fun p => strContains response_lower p) then
    ["refusal_detected"]
  else []

/-- Check 3: out-of-domain keyword blacklist. -/
def keywordFlag (response_lower : String) : List String :=
  let found := HALLUCINATION_KEYWORDS.filter (fun kw => strContains response_lower kw)
  if found.isEmpty then []
  else ["hallucination_keyword (" ++ joinWith ", " found ++ ")"]

/-- The context-overlap ratio of check 4 (defined whenever the response has
content words). -/
def overlapFraction (response : String) (retrieved_chunks : List Chunk) : ℚ :=
  let context_words := _extract_content_words (contextText retrieved_chunks)
  let response_words := _extract_content_words response
  ((response_words.filter (fun w => context_words.contains w)).length : ℚ) /
    (response_words.length : ℚ)

/-- Division, `none` on a zero denominator (a `ZeroDivisionError` site). -/
def checkedDiv (a b : ℚ) : Option ℚ := if b = 0 then none else some (a / b)

/-- Check 4: context-overlap divergence.  Guarded by a nonempty chunk list
and a nonempty response word set; the division is the fallible spot. -/
def overlapFlags (response : String) (retrieved_chunks : List Chunk) :
    Option (List String) :=
  if retrieved_chunks.isEmpty then some []
  else
    let context_words := _extract_content_words (contextText retrieved_chunks)
    let response_words := _extract_content_words response
    if response_words.isEmpty then some []
    else
      match checkedDiv ((response_words.filter (fun w => context_words.contains w)).length : ℚ)
          ((response_words.length : ℚ)) with
      | none => none
      | some r =>
        some (if r < CONTEXT_OVERLAP_THRESHOLD then
          ["potential_hallucination (overlap=" ++ formatPercent1 r ++ ", threshold=30%)"]
        else [])

/-- Check 5: unsourced pricing, only run when chunks were retrieved. -/
def pricingFlag (response : String) (retrieved_chunks : List Chunk) : List String :=
  if retrieved_chunks.isEmpty then []
  else
    match _check_contradictory_pricing response retrieved_chunks with
    | some fl => [fl]
    | none => []

/-- `evaluate_response` from `backend/evaluator/evaluator.py`. -/
def evaluate_response (response : String) (retrieved_chunks : List Chunk) :
    Option EvalResult :=
  let response_lower := pyLower response
  match overlapFlags response retrieved_chunks with
  | none => none
  | some f4 =>
    let flags := noContextFlag retrieved_chunks ++ refusalFlag response_lower ++
      keywordFlag response_lower ++ f4 ++ pricingFlag response retrieved_chunks
    some { response := response
           confidence := if flags.isEmpty then "high" else "low"
           flags := flags }

/-! ## Retriever and query-embedding cache (`backend/rag/retrieve.py`) -/

/-- Embedding vectors (`np.ndarray` rows) as rational lists. -/
abbrev Vec := List ℚ

/-- The external collaborators of `retrieve.py`: the embedding model
(`rag.embed.embed_query`) and the `hashlib.md5(...).hexdigest()` digest,
both deterministic functions of their input string. -/
structure RagEnv where
  embed_query : String → Vec
  md5hex : String → String

/-- A FAISS index, observed only through `index.search(v, k)`; the returned
`(scores, indices)` row pair is modelled as a list of (score, id) pairs.
A missing slot carries the sentinel id `-1`. -/
structure FaissIndex where
  search : Vec → Nat → List (ℚ × Int)

def _CACHE_MAX_SIZE : Nat := 128

def SIMILARITY_THRESHOLD : ℚ := mkRat 1 4

def TOP_K : Nat := 5

/-- The module-level `_query_cache : OrderedDict[str, np.ndarray]`,
front = least recently used, back = most recently used. -/
abbrev Cache := List (String × Vec)

/-- `_cache_key`: md5 of the normalized (stripped, lower-cased) query. -/
def _cache_key (env : RagEnv) (query : String) : String :=
  env.md5hex ⟨normalizeChars query.data⟩

/-- `key in dict` / `dict[key]` lookup. -/
def assocFind (cache : Cache) (key : String) : Option Vec :=
  match cache with
  | [] => none
  | (k, v) :: rest => if k == key then some v else assocFind rest key

/-- `OrderedDict.move_to_end(key)` for a key present with value `v`:
remove it and re-append at the most-recently-used end. -/
def moveToEnd (cache : Cache) (key : String) (v : Vec) : Cache :=
  cache.filter (fun p => p.1 != key) ++ [(key, v)]

/-- `_get_cached_embedding`: on a hit, refresh recency and return the
stored vector together with the updated cache. -/
def _get_cached_embedding (env : RagEnv) (cache : Cache) (query : String) :
    Option Vec × Cache :=
  let key := _cache_key env query
  match assocFind cache key with
  | some v => (some v, moveToEnd cache key v)
  | none => (none, cache)

/-- `_cache_embedding`: insert/update the key at the most-recently-used
end, then evict the single least-recently-used entry if over capacity. -/
def _cache_embedding (env : RagEnv) (cache : Cache) (query : String) (embedding : Vec) :
    Cache :=
  let key := _cache_key env query
  let c1 := cache.filter (fun p => p.1 != key) ++ [(key, embedding)]
  if _CACHE_MAX_SIZE < c1.length then c1.drop 1 else c1

structure PassageRecord where
  chunk_id : Nat
  document_name : String
  text : String
  similarity_score : ℚ
  deriving DecidableEq, Repr

/-- Python list indexing `l[i]` (negative indices wrap; out of range is an
`IndexError`, modelled as `none`). -/
def pyGet {α : Type} (l : List α) (i : Int) : Option α :=
  let j : Int := if 0 ≤ i then i else (l.length : Int) + i
  if h : 0 ≤ j ∧ j < (l.length : Int) then some (l.get ⟨j.toNat, by omega⟩)
  else none

/-- The result-building loop of `retrieve`: skip sentinel ids, skip scores
below the threshold, look the chunk up and record it with the rounded
score.  Indexing errors propagate as `none`. -/
def gatherResults (chunks : List Chunk) : List (ℚ × Int) → Option (List PassageRecord)
  | [] => some []
  | (score, idx) :: rest =>
    if idx = -1 then gatherResults chunks rest
    else if score < SIMILARITY_THRESHOLD then gatherResults chunks rest
    else
      match pyGet chunks idx with
      | none => none
      | some c =>
        match gatherResults chunks rest with
        | none => none
        | some rs =>
          some ({ chunk_id := c.chunk_id, document_name := c.document_name,
                  text := c.text, similarity_score := round4 score } :: rs)

/-- The observable outcome of one `retrieve` call: its return value, the
cache state afterwards, and how many times `embed_query` was invoked. -/
structure RetrieveOutcome where
  result : Option (List PassageRecord)
  cache : Cache
  embed_calls : Nat
  deriving Repr

/-- `retrieve` from `backend/rag/retrieve.py`, with the module-level cache
threaded explicitly. -/
def retrieve (env : RagEnv) (query : String) (index : FaissIndex)
    (chunks : List Chunk) (cache : Cache) : RetrieveOutcome :=
  let looked := _get_cached_embedding env cache query
  match looked.1 with
  | some v =>
    { result := gatherResults chunks (index.search v TOP_K)
      cache := looked.2
      embed_calls := 0 }
  | none =>
    let v := env.embed_query query
    { result := gatherResults chunks (index.search v TOP_K)
      cache := _cache_embedding env looked.2 query v
      embed_calls := 1 }

/-! ## Concrete instances used in example runs and witnesses -/

def c2Query : String :=
  "Can you explain the differences between pricing plans and recommend the best one for a startup?"

def exResponse99 : String := "The premium plan costs $99/month."

def exChunks49 : List Chunk :=
  [{ chunk_id := 0, document_name := "pricing.md", text := "The basic plan costs $49/month." }]

/-- Environment with an identity digest and a constant embedder.  The cache
only ever compares keys for equality, and md5 hex digests of distinct
normalized queries are distinct in practice, so the identity digest stands
in for `hashlib.md5(...).hexdigest()` in key-level scenarios. -/
def idEnv : RagEnv := { embed_query := fun _ => [1], md5hex := fun s => s }

/-- A five-candidate index row: one sentinel slot and one below-threshold
score among the candidates. -/
def wIdx : FaissIndex :=
  { search := fun _ _ =>
      [(mkRat 9 10, 0), (mkRat 1 5, 1), (mkRat 3 10, -1), (mkRat 26 100, 1), (mkRat 1 4, 0)] }

def wChunks : List Chunk :=
  [{ chunk_id := 0, document_name := "a.md", text := "alpha" },
   { chunk_id := 1, document_name := "b.md", text := "beta" }]

/-- What `retrieve` produces from `wIdx` over `wChunks`. -/
def wRes : List PassageRecord :=
  [{ chunk_id := 0, document_name := "a.md", text := "alpha", similarity_score := mkRat 9 10 },
   { chunk_id := 1, document_name := "b.md", text := "beta", similarity_score := mkRat 13 50 },
   { chunk_id := 0, document_name := "a.md", text := "alpha", similarity_score := mkRat 1 4 }]

/-- `n` pairwise distinct already-normalized queries `q0 … q(n-1)`. -/
def scenarioQueries (n : Nat) : List String :=
  (List.range n).map (fun i => "q" ++ natStr i)

/-- Insert each query in order into the cache, as a run of cache misses
would. -/
def insertMany (cache : Cache) (qs : List String) : Cache :=
  qs.foldl (fun c q => _cache_embedding idEnv c q []) cache

/-! ## General lemmas about the embedding -/

/-- The final classification is a threshold test on the accumulated score. -/
theorem classify_query_classification (q : String) :
    (classify_query q).classification =
      (if COMPLEX_THRESHOLD ≤ (classify_query q).complex_score then "complex" else "simple") :=
  rfl

/-- The model is read off the classification through the `MODELS` table. -/
theorem classify_query_model (q : String) :
    (classify_query q).model_used = MODELS (classify_query q).classification :=
  rfl

theorem checkedDiv_of_ne {a b : ℚ} (h : b ≠ 0) : checkedDiv a b = some (a / b) := by
  simp [checkedDiv, h]

/-- The overlap check never fails: the division is guarded by the
nonempty-content-words test. -/
theorem overlapFlags_isSome (response : String) (chunks : List Chunk) :
    (overlapFlags response chunks).isSome = true := by
  unfold overlapFlags
  split
  · rfl
  · dsimp only
    split
    · rfl
    · rename_i hrw
      rw [checkedDiv_of_ne]
      · rfl
      · have hne : _extract_content_words response ≠ [] := by
          simpa [List.isEmpty_iff] using hrw
        have hlen : (_extract_content_words response).length ≠ 0 := by
          simpa using hne
        exact Nat.cast_ne_zero.mpr hlen

/-- `evaluate_response` in terms of its five checks. -/
theorem evaluate_response_eq (response : String) (chunks : List Chunk) :
    ∃ f4, overlapFlags response chunks = some f4 ∧
      evaluate_response response chunks = some
        { response := response
          confidence :=
            if (noContextFlag chunks ++ refusalFlag (pyLower response) ++
                keywordFlag (pyLower response) ++ f4 ++ pricingFlag response chunks).isEmpty
            then "high" else "low"
          flags := noContextFlag chunks ++ refusalFlag (pyLower response) ++
            keywordFlag (pyLower response) ++ f4 ++ pricingFlag response chunks } := by
  obtain ⟨f4, hf4⟩ := Option.isSome_iff_exists.mp (overlapFlags_isSome response chunks)
  refine ⟨f4, hf4, ?_⟩
  unfold evaluate_response
  rw [hf4]

theorem if_isEmpty_confidence (L : List String) :
    ((if L.isEmpty then "high" else "low") = "low" ↔ L ≠ []) ∧
    ((if L.isEmpty then "high" else "low") = "high" ↔ L = []) := by
  cases L <;> simp

theorem strHasPrefix_append {p q : String} (x : String) (h : strHasPrefix p q = true) :
    strHasPrefix p (q ++ x) = true := by
  unfold strHasPrefix at h ⊢
  rw [String.data_append]
  exact List.isPrefixOf_iff_prefix.mpr
    ((List.isPrefixOf_iff_prefix.mp h).trans (List.prefix_append _ _))

theorem strHasPrefix_false_of_head {p s : String} {a b : Char} {pa sb : List Char}
    (hp : p.data = a :: pa) (hs : s.data = b :: sb) (hab : a ≠ b) :
    strHasPrefix p s = false := by
  unfold strHasPrefix
  rw [hp, hs]
  have hnp : ¬(a :: pa <+: b :: sb) := by
    rw [List.cons_prefix_cons]
    rintro ⟨rfl, -⟩
    exact hab rfl
  cases hb : (a :: pa).isPrefixOf (b :: sb) with
  | false => rfl
  | true => exact absurd (List.isPrefixOf_iff_prefix.mp hb) hnp

/-- A prefix whose first character differs from the first character of a literal
never matches a string extending that literal. -/
theorem strHasPrefix_lit_append {p q : String} {a b : Char} {pa qb : List Char}
    (hp : p.data = a :: pa) (hq : q.data = b :: qb) (hab : a ≠ b) (x : String) :
    strHasPrefix p (q ++ x) = false := by
  refine @strHasPrefix_false_of_head p (q ++ x) a b pa (qb ++ x.data) hp ?_ hab
  rw [String.data_append, hq]
  rfl

/-- A string whose first character differs from the first character of a literal
never equals a string extending that literal. -/
theorem ne_lit_append {s q : String} {a b : Char} {sa qb : List Char}
    (hs : s.data = a :: sa) (hq : q.data = b :: qb) (hab : a ≠ b) (x : String) :
    s ≠ q ++ x := by
  intro he
  have hd : s.data = (q ++ x).data := by rw [he]
  rw [hs, String.data_append, hq, List.cons_append] at hd
  exact hab (List.head_eq_of_cons_eq hd)

theorem mem_noContextFlag {cs : List Chunk} {f : String} (h : f ∈ noContextFlag cs) :
    f = "no_context" ∧ cs = [] := by
  unfold noContextFlag at h
  split at h
  · rename_i hlen
    simp only [List.mem_singleton] at h
    exact ⟨h, List.length_eq_zero.mp hlen⟩
  · simp at h

theorem mem_refusalFlag {rl f : String} (h : f ∈ refusalFlag rl) :
    f = "refusal_detected" := by
  unfold refusalFlag at h
  split at h <;> simp_all

theorem mem_keywordFlag {rl f : String} (h : f ∈ keywordFlag rl) :
    ∃ x, f = "hallucination_keyword (" ++ x := by
  by_cases hf : (HALLUCINATION_KEYWORDS.filter (fun kw => strContains rl kw)).isEmpty
  · simp [keywordFlag, hf] at h
  · simp [keywordFlag, hf] at h
    exact ⟨joinWith ", " (HALLUCINATION_KEYWORDS.filter (fun kw => strContains rl kw)) ++ ")",
      by rw [h, String.append_assoc]⟩

/-- `_check_contradictory_pricing` flags exactly when some response-side
price is unsourced (an unsourced price presupposes a response price). -/
theorem check_pricing_spec (r : String) (cs : List Chunk) :
    _check_contradictory_pricing r cs =
      (if (unsourcedPrices r cs).isEmpty then none
       else some ("unsourced_pricing (response mentions " ++
         joinWith ", " (sortStrings (unsourcedPrices r cs)) ++
         " not found in retrieved docs)")) := by
  unfold _check_contradictory_pricing
  split
  · rename_i hresp
    rw [if_pos]
    unfold unsourcedPrices
    rw [List.isEmpty_iff] at hresp
    simp [hresp]
  · rfl

theorem pricingFlag_spec (r : String) (cs : List Chunk) :
    pricingFlag r cs =
      (if cs ≠ [] ∧ unsourcedPrices r cs ≠ [] then
        ["unsourced_pricing (response mentions " ++
          joinWith ", " (sortStrings (unsourcedPrices r cs)) ++
          " not found in retrieved docs)"]
      else []) := by
  unfold pricingFlag
  rw [check_pricing_spec]
  by_cases h1 : cs = [] <;> by_cases h2 : unsourcedPrices r cs = [] <;>
    simp [h1, h2, List.isEmpty_iff]

theorem overlapFlags_spec (r : String) (cs : List Chunk) :
    overlapFlags r cs = some
      (if cs ≠ [] ∧ _extract_content_words r ≠ [] ∧
          overlapFraction r cs < CONTEXT_OVERLAP_THRESHOLD then
        ["potential_hallucination (overlap=" ++ formatPercent1 (overlapFraction r cs) ++
          ", threshold=30%)"]
      else []) := by
  unfold overlapFlags
  split
  · rename_i hcs
    rw [List.isEmpty_iff] at hcs
    simp [hcs]
  · rename_i hcs
    rw [List.isEmpty_iff] at hcs
    dsimp only
    split
    · rename_i hrw
      rw [List.isEmpty_iff] at hrw
      simp [hcs, hrw]
    · rename_i hrw
      rw [List.isEmpty_iff] at hrw
      have hlen : ((_extract_content_words r).length : ℚ) ≠ 0 :=
        Nat.cast_ne_zero.mpr (by simpa using hrw)
      rw [checkedDiv_of_ne hlen]
      dsimp only
      show some (if overlapFraction r cs < CONTEXT_OVERLAP_THRESHOLD then
          ["potential_hallucination (overlap=" ++ formatPercent1 (overlapFraction r cs) ++
            ", threshold=30%)"]
        else []) = _
      by_cases hlt : overlapFraction r cs < CONTEXT_OVERLAP_THRESHOLD
      · rw [if_pos hlt, if_pos (show _ ∧ _ ∧ _ from ⟨hcs, hrw, hlt⟩)]
      · rw [if_neg hlt, if_neg (fun hc => hlt hc.2.2)]

theorem ratFloorZ_eq_floor (x : ℚ) : ratFloorZ x = ⌊x⌋ := by
  rw [Rat.floor_def]
  rfl

/-- Rounding to four decimal places cannot take a score that met the
threshold below it: 0.25 is itself a multiple of 1/10000. -/
theorem threshold_le_round4 {q : ℚ} (h : SIMILARITY_THRESHOLD ≤ q) :
    SIMILARITY_THRESHOLD ≤ round4 q := by
  have hth : SIMILARITY_THRESHOLD = (1 / 4 : ℚ) := by decide
  rw [hth] at h ⊢
  have hq : (2500 : ℚ) ≤ q * 10000 := by nlinarith
  have hfl : (2500 : ℤ) ≤ ratFloorZ (q * 10000) := by
    rw [ratFloorZ_eq_floor]
    exact Int.le_floor.mpr (by exact_mod_cast hq)
  have hrhe : (2500 : ℤ) ≤ roundHalfEven (q * 10000) := by
    unfold roundHalfEven
    dsimp only
    split
    · omega
    · split
      · omega
      · split <;> omega
  unfold round4
  have hc : ((2500 : ℤ) : ℚ) ≤ (roundHalfEven (q * 10000) : ℚ) := by exact_mod_cast hrhe
  push_cast at hc
  linarith

theorem gatherResults_length {chunks : List Chunk} :
    ∀ {ps : List (ℚ × Int)} {rs : List PassageRecord},
      gatherResults chunks ps = some rs → rs.length ≤ ps.length := by
  intro ps
  induction ps with
  | nil =>
    intro rs h
    unfold gatherResults at h
    injection h with h
    subst h
    exact Nat.le_refl 0
  | cons p rest ih =>
    intro rs h
    obtain ⟨score, idx⟩ := p
    unfold gatherResults at h
    split at h
    · exact (ih h).trans (Nat.le_succ _)
    · split at h
      · exact (ih h).trans (Nat.le_succ _)
      · split at h
        · exact absurd h (by simp)
        · split at h
          · exact absurd h (by simp)
          · injection h with h
            subst h
            simpa using ih (by assumption)

theorem gatherResults_scores {chunks : List Chunk} :
    ∀ {ps : List (ℚ × Int)} {rs : List PassageRecord},
      gatherResults chunks ps = some rs →
      ∀ r ∈ rs, SIMILARITY_THRESHOLD ≤ r.similarity_score := by
  intro ps
  induction ps with
  | nil =>
    intro rs h
    unfold gatherResults at h
    injection h with h
    subst h
    simp
  | cons p rest ih =>
    intro rs h
    obtain ⟨score, idx⟩ := p
    unfold gatherResults at h
    split at h
    · exact ih h
    · split at h
      · exact ih h
      · rename_i hscore
        split at h
        · exact absurd h (by simp)
        · split at h
          · exact absurd h (by simp)
          · injection h with h
            subst h
            intro r hr
            rcases List.mem_cons.mp hr with hr | hr
            · subst hr
              exact threshold_le_round4 (not_lt.mp hscore)
            · exact ih (by assumption) r hr

theorem assocFind_append_key (l : List (String × Vec)) (k : String) (v : Vec)
    (hl : ∀ p ∈ l, (p.1 == k) = false) :
    assocFind (l ++ [(k, v)]) k = some v := by
  induction l with
  | nil => simp [assocFind]
  | cons a t ih =>
    have ha := hl a (List.mem_cons_self a t)
    rw [List.cons_append]
    unfold assocFind
    rw [ha]
    exact ih (fun p hp => hl p (List.mem_cons_of_mem a hp))

theorem mem_filter_bne {l : List (String × Vec)} {k : String} {p : String × Vec}
    (hp : p ∈ l.filter (fun q => q.1 != k)) : (p.1 == k) = false := by
  have h := (List.mem_filter.mp hp).2
  simpa [bne] using h

theorem assocFind_moveToEnd (cache : Cache) (k : String) (v : Vec) :
    assocFind (moveToEnd cache k v) k = some v :=
  assocFind_append_key _ _ _ (fun _ hp => mem_filter_bne hp)

theorem assocFind_cache_embedding (env : RagEnv) (cache : Cache) (q : String) (v : Vec) :
    assocFind (_cache_embedding env cache q v) (_cache_key env q) = some v := by
  unfold _cache_embedding
  dsimp only
  split
  · rename_i hlen
    have hne : cache.filter (fun p => p.1 != _cache_key env q) ≠ [] := by
      intro h0
      rw [h0] at hlen
      simp [_CACHE_MAX_SIZE] at hlen
    obtain ⟨a, t, hf⟩ := List.exists_cons_of_ne_nil hne
    rw [hf, List.cons_append, List.drop_one, List.tail_cons]
    refine assocFind_append_key _ _ _ (fun p hp => ?_)
    exact mem_filter_bne (by rw [hf]; exact List.mem_cons_of_mem a hp)
  · exact assocFind_append_key _ _ _ (fun _ hp => mem_filter_bne hp)

theorem get_cached_hit {env : RagEnv} {cache : Cache} {q : String} {v : Vec}
    (h : assocFind cache (_cache_key env q) = some v) :
    _get_cached_embedding env cache q = (some v, moveToEnd cache (_cache_key env q) v) := by
  unfold _get_cached_embedding
  dsimp only
  rw [h]

theorem get_cached_miss {env : RagEnv} {cache : Cache} {q : String}
    (h : assocFind cache (_cache_key env q) = none) :
    _get_cached_embedding env cache q = (none, cache) := by
  unfold _get_cached_embedding
  dsimp only
  rw [h]

theorem retrieve_hit {env : RagEnv} {cache : Cache} {q : String} {v : Vec}
    (index : FaissIndex) (chunks : List Chunk)
    (h : assocFind cache (_cache_key env q) = some v) :
    retrieve env q index chunks cache =
      { result := gatherResults chunks (index.search v TOP_K)
        cache := moveToEnd cache (_cache_key env q) v
        embed_calls := 0 } := by
  unfold retrieve
  rw [get_cached_hit h]

theorem retrieve_miss {env : RagEnv} {cache : Cache} {q : String}
    (index : FaissIndex) (chunks : List Chunk)
    (h : assocFind cache (_cache_key env q) = none) :
    retrieve env q index chunks cache =
      { result := gatherResults chunks (index.search (env.embed_query q) TOP_K)
        cache := _cache_embedding env cache q (env.embed_query q)
        embed_calls := 1 } := by
  unfold retrieve
  rw [get_cached_miss h]

/-! ## Claim theorems -/

/-- C2 counterexample: on the quoted query the score of the router is 2, not at
least 4, and the long-query signal does not fire (the query has 16 words,
below the 20-word trigger), so the claim as stated is false. -/
theorem spec_C2_counterexample :
    ¬(4 ≤ (classify_query c2Query).complex_score ∧
      (classify_query c2Query).signals.any (strHasPrefix "long_query") = true) := by
  decide

/-- C2 (amended): `classify` on the quoted query yields classification
"complex", but with complex_score exactly 2 (the threshold), the
reasoning-keywords signal being the only one that fires (matching
"explain", "difference", "recommend"); the long-query signal does not fire
because the query has only 16 words. -/
theorem spec_C2 :
    classify_query c2Query =
      { classification := "complex"
        model_used := "llama-3.3-70b-versatile"
        complex_score := 2
        signals := ["reasoning_keywords (explain, difference, recommend)"] } := by
  decide

/-- C4: for every input text, the classification is "complex" exactly when
the total score reaches the threshold 2 (ties classify as complex), it is
"simple" exactly when the score is below 2, and the model is read off the
classification through the fixed two-entry `MODELS` table. -/
theorem spec_C4 (q : String) :
    ((classify_query q).classification = "complex" ↔
      COMPLEX_THRESHOLD ≤ (classify_query q).complex_score) ∧
    ((classify_query q).classification = "simple" ↔
      (classify_query q).complex_score < COMPLEX_THRESHOLD) ∧
    (classify_query q).model_used = MODELS (classify_query q).classification := by
  have hc := classify_query_classification q
  have hm := classify_query_model q
  by_cases h : COMPLEX_THRESHOLD ≤ (classify_query q).complex_score
  · rw [if_pos h] at hc
    refine ⟨⟨fun _ => h, fun _ => hc⟩, ⟨fun hs => ?_, fun hlt => absurd h (not_le.mpr hlt)⟩, hm⟩
    rw [hc] at hs
    exact absurd hs (by decide)
  · rw [if_neg h] at hc
    refine ⟨⟨fun hcpx => ?_, fun hle => absurd hle h⟩,
      ⟨fun _ => not_le.mp h, fun _ => hc⟩, hm⟩
    rw [hc] at hcpx
    exact absurd hcpx (by decide)

/-- C9: the classifier and evaluator are total over arbitrary text: the
evaluator always returns a well-formed result (in particular the guarded
overlap division never divides by zero), and the classifier always returns
one of the two classifications with a model from the fixed table. -/
theorem spec_C9 (q response : String) (chunks : List Chunk) :
    (evaluate_response response chunks).isSome = true ∧
    ((classify_query q).classification = "simple" ∨
      (classify_query q).classification = "complex") ∧
    ((classify_query q).model_used = "llama-3.1-8b-instant" ∨
      (classify_query q).model_used = "llama-3.3-70b-versatile") := by
  refine ⟨?_, ?_, ?_⟩
  · obtain ⟨f4, -, heq⟩ := evaluate_response_eq response chunks
    rw [heq]
    rfl
  · have hc := classify_query_classification q
    by_cases h : COMPLEX_THRESHOLD ≤ (classify_query q).complex_score
    · rw [if_pos h] at hc
      exact Or.inr hc
    · rw [if_neg h] at hc
      exact Or.inl hc
  · rw [classify_query_model q]
    unfold MODELS
    split
    · exact Or.inl rfl
    · exact Or.inr rfl

/-- C8: the confidence of the evaluator is "low" exactly when at least one flag
fired and "high" exactly when the flag list is empty. -/
theorem spec_C8 (response : String) (chunks : List Chunk) :
    ∃ res, evaluate_response response chunks = some res ∧
      (res.confidence = "low" ↔ res.flags ≠ []) ∧
      (res.confidence = "high" ↔ res.flags = []) := by
  obtain ⟨f4, -, heq⟩ := evaluate_response_eq response chunks
  refine ⟨_, heq, ?_⟩
  have h := if_isEmpty_confidence
    (noContextFlag chunks ++ refusalFlag (pyLower response) ++
      keywordFlag (pyLower response) ++ f4 ++ pricingFlag response chunks)
  exact h

/-- C6: the evaluator flags `potential_hallucination` exactly when the
passage list is non-empty, the response has at least one content word, and
the overlap ratio is strictly below the 0.30 threshold; when the check is
skipped (no passages or no content words) no flag appears and no error
occurs (the result is still `some`). -/
theorem spec_C6 (response : String) (chunks : List Chunk) :
    ∃ res, evaluate_response response chunks = some res ∧
      ((res.flags.any (strHasPrefix "potential_hallucination") = true) ↔
        (chunks ≠ [] ∧ _extract_content_words response ≠ [] ∧
          overlapFraction response chunks < CONTEXT_OVERLAP_THRESHOLD)) := by
  obtain ⟨f4, hf4, heq⟩ := evaluate_response_eq response chunks
  refine ⟨_, heq, ?_⟩
  rw [overlapFlags_spec] at hf4
  injection hf4 with hf4
  dsimp only
  rw [List.any_eq_true]
  constructor
  · rintro ⟨f, hmem, hpred⟩
    simp only [List.mem_append] at hmem
    rcases hmem with ((((h1 | h2) | h3) | h4) | h5)
    · obtain ⟨rfl, -⟩ := mem_noContextFlag h1
      exact absurd hpred (by decide)
    · rw [mem_refusalFlag h2] at hpred
      exact absurd hpred (by decide)
    · obtain ⟨x, rfl⟩ := mem_keywordFlag h3
      rw [strHasPrefix_lit_append (a := 'p') (b := 'h') rfl rfl (by decide) x] at hpred
      exact absurd hpred (by decide)
    · rw [← hf4] at h4
      by_cases hcond : chunks ≠ [] ∧ _extract_content_words response ≠ [] ∧
          overlapFraction response chunks < CONTEXT_OVERLAP_THRESHOLD
      · exact hcond
      · rw [if_neg hcond] at h4
        simp at h4
    · rw [pricingFlag_spec] at h5
      by_cases hcond : chunks ≠ [] ∧ unsourcedPrices response chunks ≠ []
      · rw [if_pos hcond, List.mem_singleton] at h5
        subst h5
        rw [String.append_assoc,
          strHasPrefix_lit_append (a := 'p') (b := 'u') rfl rfl (by decide) _] at hpred
        exact absurd hpred (by decide)
      · rw [if_neg hcond] at h5
        simp at h5
  · intro hcond
    refine ⟨"potential_hallucination (overlap=" ++
      formatPercent1 (overlapFraction response chunks) ++ ", threshold=30%)", ?_, ?_⟩
    · simp only [List.mem_append]
      refine Or.inl (Or.inr ?_)
      rw [← hf4, if_pos hcond]
      simp
    · rw [String.append_assoc]
      exact strHasPrefix_append _ (by decide)

/-- C7: the evaluator flags `unsourced_pricing` exactly when the passage
list is non-empty and some response-side price token is absent from the
context-side price tokens, the flag lists the offending values, and in
particular a response mentioning $99/month against passages containing only
$49/month is flagged naming $99/month. -/
theorem spec_C7 (response : String) (chunks : List Chunk) :
    ∃ res, evaluate_response response chunks = some res ∧
      ((res.flags.any (strHasPrefix "unsourced_pricing") = true) ↔
        (chunks ≠ [] ∧ unsourcedPrices response chunks ≠ [])) ∧
      (chunks ≠ [] → unsourcedPrices response chunks ≠ [] →
        ("unsourced_pricing (response mentions " ++
          joinWith ", " (sortStrings (unsourcedPrices response chunks)) ++
          " not found in retrieved docs)") ∈ res.flags) ∧
      (∃ r99, evaluate_response exResponse99 exChunks49 = some r99 ∧
        "unsourced_pricing (response mentions $99/month not found in retrieved docs)"
          ∈ r99.flags) := by
  obtain ⟨f4, hf4, heq⟩ := evaluate_response_eq response chunks
  rw [overlapFlags_spec] at hf4
  injection hf4 with hf4
  refine ⟨_, heq, ?_, ?_, ?_⟩
  · dsimp only
    rw [List.any_eq_true]
    constructor
    · rintro ⟨f, hmem, hpred⟩
      simp only [List.mem_append] at hmem
      rcases hmem with ((((h1 | h2) | h3) | h4) | h5)
      · obtain ⟨rfl, -⟩ := mem_noContextFlag h1
        exact absurd hpred (by decide)
      · rw [mem_refusalFlag h2] at hpred
        exact absurd hpred (by decide)
      · obtain ⟨x, rfl⟩ := mem_keywordFlag h3
        rw [strHasPrefix_lit_append (a := 'u') (b := 'h') rfl rfl (by decide) x] at hpred
        exact absurd hpred (by decide)
      · rw [← hf4] at h4
        by_cases hcond : chunks ≠ [] ∧ _extract_content_words response ≠ [] ∧
            overlapFraction response chunks < CONTEXT_OVERLAP_THRESHOLD
        · rw [if_pos hcond, List.mem_singleton] at h4
          subst h4
          rw [String.append_assoc,
            strHasPrefix_lit_append (a := 'u') (b := 'p') rfl rfl (by decide) _] at hpred
          exact absurd hpred (by decide)
        · rw [if_neg hcond] at h4
          simp at h4
      · rw [pricingFlag_spec] at h5
        by_cases hcond : chunks ≠ [] ∧ unsourcedPrices response chunks ≠ []
        · exact hcond
        · rw [if_neg hcond] at h5
          simp at h5
    · rintro ⟨hcs, hup⟩
      refine ⟨"unsourced_pricing (response mentions " ++
        joinWith ", " (sortStrings (unsourcedPrices response chunks)) ++
        " not found in retrieved docs)", ?_, ?_⟩
      · simp only [List.mem_append]
        refine Or.inr ?_
        rw [pricingFlag_spec, if_pos ⟨hcs, hup⟩]
        simp
      · rw [String.append_assoc]
        exact strHasPrefix_append _ (by decide)
  · intro hcs hup
    dsimp only
    simp only [List.mem_append]
    refine Or.inr ?_
    rw [pricingFlag_spec, if_pos ⟨hcs, hup⟩]
    simp
  · exact ⟨{ response := exResponse99, confidence := "low",
             flags := ["unsourced_pricing (response mentions $99/month not found in retrieved docs)"] },
      by decide, by decide⟩

theorem spec_C7_witness :
    ∃ res, evaluate_response exResponse99 exChunks49 = some res ∧
      res.flags.any (strHasPrefix "unsourced_pricing") = true ∧
      ("unsourced_pricing (response mentions " ++
        joinWith ", " (sortStrings (unsourcedPrices exResponse99 exChunks49)) ++
        " not found in retrieved docs)") ∈ res.flags := by
  obtain ⟨res, h1, h2, h3, -⟩ := spec_C7 exResponse99 exChunks49
  exact ⟨res, h1, h2.mpr ⟨by decide, by decide⟩, h3 (by decide) (by decide)⟩

/-- C10: the `no_context` flag never co-occurs with a
`potential_hallucination` or `unsourced_pricing` flag: the former requires
an empty passage list while the latter two require a non-empty one. -/
theorem spec_C10 (response : String) (chunks : List Chunk) :
    ∃ res, evaluate_response response chunks = some res ∧
      ¬("no_context" ∈ res.flags ∧
        res.flags.any (fun f => strHasPrefix "potential_hallucination" f ||
          strHasPrefix "unsourced_pricing" f) = true) := by
  obtain ⟨f4, hf4, heq⟩ := evaluate_response_eq response chunks
  refine ⟨_, heq, ?_⟩
  rw [overlapFlags_spec] at hf4
  injection hf4 with hf4
  dsimp only
  rintro ⟨hnc, hany⟩
  simp only [List.mem_append] at hnc
  have hchunks : chunks = [] := by
    rcases hnc with ((((h1 | h2) | h3) | h4) | h5)
    · exact (mem_noContextFlag h1).2
    · exact absurd (mem_refusalFlag h2) (by decide)
    · obtain ⟨x, hx⟩ := mem_keywordFlag h3
      exact absurd hx (ne_lit_append (a := 'n') (b := 'h') rfl rfl (by decide) x)
    · rw [← hf4] at h4
      by_cases hcond : chunks ≠ [] ∧ _extract_content_words response ≠ [] ∧
          overlapFraction response chunks < CONTEXT_OVERLAP_THRESHOLD
      · rw [if_pos hcond, List.mem_singleton] at h4
        refine absurd h4 ?_
        rw [String.append_assoc]
        exact ne_lit_append (a := 'n') (b := 'p') rfl rfl (by decide) _
      · rw [if_neg hcond] at h4
        simp at h4
    · rw [pricingFlag_spec] at h5
      by_cases hcond : chunks ≠ [] ∧ unsourcedPrices response chunks ≠ []
      · rw [if_pos hcond, List.mem_singleton] at h5
        refine absurd h5 ?_
        rw [String.append_assoc]
        exact ne_lit_append (a := 'n') (b := 'u') rfl rfl (by decide) _
      · rw [if_neg hcond] at h5
        simp at h5
  subst hchunks
  have hf4e : f4 = [] := by
    rw [← hf4, if_neg]
    rintro ⟨hne, -⟩
    exact hne rfl
  have hpr : pricingFlag response [] = [] := by
    rw [pricingFlag_spec, if_neg]
    rintro ⟨hne, -⟩
    exact hne rfl
  rw [List.any_eq_true] at hany
  obtain ⟨f, hmem, hpred⟩ := hany
  simp only [hf4e, hpr, List.append_nil, List.mem_append] at hmem
  rcases hmem with (h1 | h2) | h3
  · obtain ⟨rfl, -⟩ := mem_noContextFlag h1
    exact absurd hpred (by decide)
  · rw [mem_refusalFlag h2] at hpred
    exact absurd hpred (by decide)
  · obtain ⟨x, rfl⟩ := mem_keywordFlag h3
    rw [strHasPrefix_lit_append (a := 'p') (b := 'h') rfl rfl (by decide) x,
      strHasPrefix_lit_append (a := 'u') (b := 'h') rfl rfl (by decide) x] at hpred
    exact absurd hpred (by decide)

/-- C1: for every environment, query, index (whose `search` honours the
k-results contract), corpus and cache state, a successful `retrieve`
returns at most 5 passage records, every one of which carries a rounded
similarity score still at or above the 0.25 threshold. -/
theorem spec_C1 (env : RagEnv) (query : String) (index : FaissIndex)
    (chunks : List Chunk) (cache : Cache)
    (hk : ∀ v, (index.search v TOP_K).length ≤ TOP_K)
    {res : List PassageRecord}
    (hres : (retrieve env query index chunks cache).result = some res) :
    res.length ≤ 5 ∧ ∀ r ∈ res, SIMILARITY_THRESHOLD ≤ r.similarity_score := by
  cases hl : assocFind cache (_cache_key env query) with
  | some v =>
    rw [retrieve_hit index chunks hl] at hres
    dsimp only at hres
    exact ⟨(gatherResults_length hres).trans (hk v), gatherResults_scores hres⟩
  | none =>
    rw [retrieve_miss index chunks hl] at hres
    dsimp only at hres
    exact ⟨(gatherResults_length hres).trans (hk _), gatherResults_scores hres⟩

theorem spec_C1_witness :
    wRes.length ≤ 5 ∧ ∀ r ∈ wRes, SIMILARITY_THRESHOLD ≤ r.similarity_score :=
  spec_C1 idEnv "hello" wIdx wChunks [] (fun _ => Nat.le.refl) (by decide)

/-- C5: two queries equal after normalization (trim, lower-case) retrieve
identical results against the same index, and the second retrieval is a
cache hit that never invokes the embedding function. -/
theorem spec_C5 (env : RagEnv) (q1 q2 : String) (index : FaissIndex)
    (chunks : List Chunk) (cache : Cache)
    (hnorm : normalizeChars q1.data = normalizeChars q2.data) :
    (retrieve env q2 index chunks (retrieve env q1 index chunks cache).cache).result =
      (retrieve env q1 index chunks cache).result ∧
    (retrieve env q2 index chunks (retrieve env q1 index chunks cache).cache).embed_calls
      = 0 := by
  have hkey : _cache_key env q2 = _cache_key env q1 := by
    unfold _cache_key
    rw [hnorm]
  cases hl : assocFind cache (_cache_key env q1) with
  | some v =>
    rw [retrieve_hit index chunks hl]
    dsimp only
    have h2 : assocFind (moveToEnd cache (_cache_key env q1) v) (_cache_key env q2)
        = some v := by
      rw [hkey]
      exact assocFind_moveToEnd cache _ v
    rw [retrieve_hit index chunks h2]
    exact ⟨rfl, rfl⟩
  | none =>
    rw [retrieve_miss index chunks hl]
    dsimp only
    have h2 : assocFind (_cache_embedding env cache q1 (env.embed_query q1))
        (_cache_key env q2) = some (env.embed_query q1) := by
      rw [hkey]
      exact assocFind_cache_embedding env cache q1 _
    rw [retrieve_hit index chunks h2]
    exact ⟨rfl, rfl⟩

theorem spec_C5_witness :
    (retrieve idEnv "hello" wIdx wChunks
        (retrieve idEnv "  Hello " wIdx wChunks []).cache).result =
      (retrieve idEnv "  Hello " wIdx wChunks []).result ∧
    (retrieve idEnv "hello" wIdx wChunks
        (retrieve idEnv "  Hello " wIdx wChunks []).cache).embed_calls = 0 :=
  spec_C5 idEnv "  Hello " "hello" wIdx wChunks [] (by decide)

set_option maxRecDepth 100000 in
/-- C3: the query-embedding cache never exceeds its 128-entry capacity;
after 129 distinct normalized queries are inserted into an empty cache with
no repeated lookups, the first key has been evicted (and the cache is full);
and if an older key gets a cache hit before one further new insertion, the
hit-refreshed key survives while the never-touched oldest key is evicted
instead — eviction is by recency, not insertion time. -/
theorem spec_C3 :
    (∀ (env : RagEnv) (cache : Cache) (q : String) (v : Vec),
        cache.length ≤ _CACHE_MAX_SIZE →
        (_cache_embedding env cache q v).length ≤ _CACHE_MAX_SIZE) ∧
    (assocFind (insertMany [] (scenarioQueries 129)) (_cache_key idEnv "q0") = none ∧
      (insertMany [] (scenarioQueries 129)).length = _CACHE_MAX_SIZE) ∧
    ((_get_cached_embedding idEnv (insertMany [] (scenarioQueries 128)) "q0").1.isSome
        = true ∧
      (assocFind (_cache_embedding idEnv
          (_get_cached_embedding idEnv (insertMany [] (scenarioQueries 128)) "q0").2
          "q128" []) (_cache_key idEnv "q0")).isSome = true ∧
      assocFind (_cache_embedding idEnv
          (_get_cached_embedding idEnv (insertMany [] (scenarioQueries 128)) "q0").2
          "q128" []) (_cache_key idEnv "q1") = none) := by
  refine ⟨?_, by decide, by decide⟩
  intro env cache q v hle
  unfold _cache_embedding
  dsimp only
  split
  · have h1 : (cache.filter (fun p => p.1 != _cache_key env q)).length ≤ cache.length :=
      List.length_filter_le _ _
    simp only [List.length_drop, List.length_append, List.length_singleton]
    omega
  · rename_i hng
    exact not_lt.mp hng

theorem spec_C3_witness :
    (_cache_embedding idEnv [] "q" [] : Cache).length ≤ _CACHE_MAX_SIZE :=
  spec_C3.1 idEnv [] "q" [] (by decide)

end ClearPath
